import Mathlib

/-!
Shallow embedding of the table-discovery and normalization pipeline of
`app.py` (function `load_lbr_df` and its helpers), together with proofs
checking the specification's claims about it.

Conventions:
* An HTML-extracted table (the spec's `RawTable`) is a list of column
  headers plus a list of rows; every cell is modelled as the string that
  `astype(str)` would produce, since the code immediately coerces cells
  to strings before every operation it performs on them.
* Machine floats are modelled exactly as rationals (`ℚ`); the cells the
  pipeline parses are short decimal numerals, which floats represent
  exactly in the claims' ranges.
* `pd.to_numeric(..., errors="coerce")` is modelled on plain decimal
  numerals (optional surrounding whitespace, optional sign, digits with
  at most one decimal point); scientific notation is not modelled, as no
  claim and no cell shape in this pipeline exercises it.
-/

/-- A raw HTML-extracted table: ordered column headers and ordered rows.
Cells are strings (see module comment). -/
structure RawTable where
  headers : List String
  rows : List (List String)
  deriving DecidableEq, Repr

/-- Whitespace characters of Python's regex class and of `str.strip`
(ASCII range): space, tab, newline, carriage return, vertical tab, form
feed. -/
def isSpaceChar (c : Char) : Bool :=
  c == ' ' || c == '\t' || c == '\n' || c == '\r' || c == '\x0b' || c == '\x0c'

/-- The regex character class A-Z used in the state-extraction pattern. -/
def isAZ (c : Char) : Bool :=
  'A' ≤ c && c ≤ 'Z'

/-- Substring test on character lists, the semantics of Python's
`pat in s`. -/
def hasSubstring (pat : List Char) : List Char → Bool
  | [] => pat.isEmpty
  | c :: cs => List.isPrefixOf pat (c :: cs) || hasSubstring pat cs

/-- Python's `pat in s` substring containment on strings. -/
def containsSub (s pat : String) : Bool :=
  hasSubstring pat.data s.data

/-- Python's `str.lower()` (ASCII range; every header in this pipeline
is ASCII). -/
def lowerStr (s : String) : String :=
  String.mk (s.data.map Char.toLower)

/-- Python's `str.upper()` (ASCII range). -/
def upperStr (s : String) : String :=
  String.mk (s.data.map Char.toUpper)

/-- Python's `str.strip()`: remove leading and trailing whitespace. -/
def stripStr (s : String) : String :=
  String.mk (((s.data.dropWhile isSpaceChar).reverse.dropWhile isSpaceChar).reverse)

/-- Line 115 of `app.py`: a table qualifies when some lowercased header
contains "rank" and some lowercased header contains "consol" or
"assets". -/
def qualifies (t : RawTable) : Bool :=
  (t.headers.any fun c => containsSub (lowerStr c) "rank") &&
  (t.headers.any fun c => containsSub (lowerStr c) "consol" || containsSub (lowerStr c) "assets")

/-- `x.shape[0] * x.shape[1]`: number of rows times number of columns. -/
def cellCount (t : RawTable) : Nat :=
  t.rows.length * t.headers.length

/-- Python's `max(tables, key=cellCount)`: fold keeping the current best
and replacing it only on a strictly greater key, so the first maximal
element wins; `none` on the empty list (where Python `max` raises). -/
def maxBySize (ts : List RawTable) : Option RawTable :=
  match ts with
  | [] => none
  | t :: rest => some (rest.foldl (fun best x => if cellCount best < cellCount x then x else best) t)

/-- Failures of the table-selection stage.  `noTablesFound` is what
`pd.read_html` raises on a document with zero tables ("No tables
found"); `emptyMaxArg` is the generic ValueError Python's `max` raises
on an empty sequence. -/
inductive PipelineError where
  | noTablesFound
  | emptyMaxArg
  deriving DecidableEq, Repr

/-- Lines 111-120 of `app.py`: return the first table that `qualifies`;
otherwise fall back to the table with the greatest cell count; on an
empty input the fallback's `max` raises. -/
def selectBestTable (ts : List RawTable) : Except PipelineError RawTable :=
  match ts.find? qualifies with
  | some t => Except.ok t
  | none =>
      match maxBySize ts with
      | some t => Except.ok t
      | none => Except.error PipelineError.emptyMaxArg

/-- The selection stage as reached from line 109: `pd.read_html` itself
raises "No tables found" when the document contains no tables, so an
empty sequence never reaches the header scan. -/
def parseAndSelect (ts : List RawTable) : Except PipelineError RawTable :=
  if ts.isEmpty then Except.error PipelineError.noTablesFound
  else selectBestTable ts

/-- Modelled from the spec: the weighted header score the specification
ascribes to the scorer (a "rank" header is worth 2, a
"consol"/"assets"/"asset" header 2, a "location" header 1).  Defined
from the spec's words for comparison with `selectBestTable`; no such
score exists in the code. -/
def specScore (t : RawTable) : Nat :=
  (if t.headers.any (fun c => containsSub (lowerStr c) "rank") then 2 else 0) +
  (if t.headers.any (fun c =>
      containsSub (lowerStr c) "consol" || containsSub (lowerStr c) "assets" ||
      containsSub (lowerStr c) "asset") then 2 else 0) +
  (if t.headers.any (fun c => containsSub (lowerStr c) "location") then 1 else 0)

/-- First table of the counterexample to C1: qualifies, spec score 4. -/
def tRankAssets : RawTable :=
  { headers := ["Rank", "Assets"], rows := [["a", "1"]] }

/-- Second table of the counterexample to C1: qualifies, spec score 5. -/
def tRankAssetsLoc : RawTable :=
  { headers := ["Rank", "Assets", "Location"], rows := [["b", "2", "NY"]] }

/-- Line 123 of `app.py`: header labels are stripped of surrounding
whitespace before any role resolution. -/
def trimmedHeaders (t : RawTable) : List String :=
  t.headers.map stripStr

/-- Line 128 of `app.py`: a header matches when its lowercased text
contains any of the given candidate substrings. -/
def matchesAny (patterns : List String) (header : String) : Bool :=
  patterns.any fun p => containsSub (lowerStr header) p

/-- Lines 125-130 of `app.py` (`find_col`): the first column label whose
lowercased text contains any candidate substring; `none` when no column
matches. -/
def find_col (patterns : List String) (headers : List String) : Option String :=
  headers.find? (matchesAny patterns)

/-- Index of the first element satisfying `p`. -/
def firstIdx (p : String → Bool) : List String → Option Nat
  | [] => none
  | c :: cs => if p c then some 0 else (firstIdx p cs).map (fun i => i + 1)

/-- `find_col`, resolved to the position of the bound column
(`df[c]` reads the column so labelled; `pd.read_html` deduplicates
labels, so the first occurrence is the bound column). -/
def find_colIdx (patterns : List String) (headers : List String) : Option Nat :=
  firstIdx (matchesAny patterns) headers

/-- The `PrimaryMagnitude` candidate substrings of line 136. -/
def assetPatterns : List String :=
  ["consol assets", "consolidated assets", "consol"]

/-- Lines 138-142 of `app.py`: the IBF column binds only when a header,
stripped and uppercased, equals exactly "IBF". -/
def ibfPred (c : String) : Bool :=
  upperStr (stripStr c) == "IBF"

/-- Line 133: the column bound to the `Rank` role. -/
def col_rank (t : RawTable) : Option String :=
  find_col ["rank"] (trimmedHeaders t)

/-- Line 134: the column bound to the `Location` role. -/
def col_loc (t : RawTable) : Option String :=
  find_col ["location"] (trimmedHeaders t)

/-- Line 135: the column bound to the `CharterType` role. -/
def col_char (t : RawTable) : Option String :=
  find_col ["charter"] (trimmedHeaders t)

/-- Line 136: the column bound to the `PrimaryMagnitude` role. -/
def col_assets (t : RawTable) : Option String :=
  find_col assetPatterns (trimmedHeaders t)

/-- Line 137: the column bound to the `SecondaryMagnitude` role. -/
def col_dom_assets (t : RawTable) : Option String :=
  find_col ["domestic assets"] (trimmedHeaders t)

/-- Lines 138-142: the column bound to the IBF role (exact match). -/
def col_ibf (t : RawTable) : Option String :=
  (trimmedHeaders t).find? ibfPred

/-- Position of the `Rank` column. -/
def col_rankIdx (t : RawTable) : Option Nat :=
  find_colIdx ["rank"] (trimmedHeaders t)

/-- Position of the `Location` column. -/
def col_locIdx (t : RawTable) : Option Nat :=
  find_colIdx ["location"] (trimmedHeaders t)

/-- Position of the `CharterType` column. -/
def col_charIdx (t : RawTable) : Option Nat :=
  find_colIdx ["charter"] (trimmedHeaders t)

/-- Position of the `PrimaryMagnitude` column. -/
def col_assetsIdx (t : RawTable) : Option Nat :=
  firstIdx (matchesAny assetPatterns) (trimmedHeaders t)

/-- Position of the `SecondaryMagnitude` column. -/
def col_dom_assetsIdx (t : RawTable) : Option Nat :=
  find_colIdx ["domestic assets"] (trimmedHeaders t)

/-- Position of the IBF column. -/
def col_ibfIdx (t : RawTable) : Option Nat :=
  firstIdx ibfPred (trimmedHeaders t)

/-- Value of an unsigned decimal numeral. -/
def digitsToNat (l : List Char) : Nat :=
  l.foldl (fun n c => 10 * n + (c.toNat - 48)) 0

/-- `pd.to_numeric(errors="coerce")` on an unsigned body: valid when the
text is digits with at most one decimal point and at least one digit;
anything else coerces to NaN, modelled as `none`. -/
def parseCleaned (l : List Char) : Option ℚ :=
  if (l.all fun c => c.isDigit || c == '.') = true ∧ l.count '.' ≤ 1 ∧
     (l.any fun c => c.isDigit) = true then
    some ((digitsToNat (l.takeWhile fun c => c != '.') : ℚ) +
      (digitsToNat ((l.dropWhile fun c => c != '.').drop 1) : ℚ) /
        (10 : ℚ) ^ ((l.dropWhile fun c => c != '.').drop 1).length)
  else none

/-- Remove leading and trailing whitespace characters. -/
def trimSpacesList (l : List Char) : List Char :=
  ((l.dropWhile isSpaceChar).reverse.dropWhile isSpaceChar).reverse

/-- `pd.to_numeric(errors="coerce")` on a cell string: optional
surrounding whitespace, optional sign, then an unsigned decimal body
(scientific notation is not modelled; see module comment). -/
def to_numeric (s : String) : Option ℚ :=
  match trimSpacesList s.data with
  | [] => none
  | c :: rest =>
      if c == '-' then (parseCleaned rest).map (fun q => -q)
      else if c == '+' then parseCleaned rest
      else parseCleaned (c :: rest)

/-- Line 149: `str.replace(",", "")`. -/
def removeCommas (l : List Char) : List Char :=
  l.filter fun c => c != ','

/-- Line 150: `str.replace(r"[^0-9.]", "")` — keep only digits and
decimal points. -/
def stripNonNumeric (l : List Char) : List Char :=
  l.filter fun c => c.isDigit || c == '.'

/-- Lines 147-151: the cleaned text of a magnitude cell. -/
def cleanNumeric (s : String) : String :=
  String.mk (stripNonNumeric (removeCommas s.data))

/-- Lines 147-152: full numeric coercion of a magnitude cell — clean,
then `pd.to_numeric(errors="coerce")`. -/
def coerceNum (s : String) : Option ℚ :=
  to_numeric (cleanNumeric s)

/-- Line 156 of `app.py`: `str.extract` with the pattern comma, any
amount of whitespace, two uppercase letters captured, optional trailing
whitespace, end of string.  Implemented by scanning from the end of the
string. -/
def extractState (s : String) : Option String :=
  match s.data.reverse.dropWhile isSpaceChar with
  | y :: x :: rest =>
      if isAZ x && isAZ y then
        match rest.dropWhile isSpaceChar with
        | c :: _ => if c == ',' then some (String.mk [x, y]) else none
        | [] => none
      else none
  | _ => none

/-- Modelled from the spec: the trailing pattern the specification
states for region derivation — a comma, one space, two uppercase
letters, end of string.  Defined from the spec's words for comparison
with `extractState`. -/
def specRegion (s : String) : Option String :=
  match s.data.reverse with
  | y :: x :: sp :: c :: _ =>
      if isAZ x && isAZ y && sp == ' ' && c == ',' then some (String.mk [x, y]) else none
  | _ => none

/-- The language of the regex `,\s*([A-Z]{2})\s*$` of line 156, as a
proposition: the text decomposes into an arbitrary prefix, a comma,
whitespace, the two captured uppercase letters, and trailing
whitespace. -/
def TrailingPat (s : String) (x y : Char) : Prop :=
  ∃ pre ws1 ws2 : List Char,
    s.data = pre ++ ',' :: (ws1 ++ x :: y :: ws2) ∧
    (∀ c ∈ ws1, isSpaceChar c = true) ∧
    (∀ c ∈ ws2, isSpaceChar c = true) ∧
    isAZ x = true ∧ isAZ y = true

/-- Modelled from the spec: role resolution as the specification words
it — candidate substrings tried in priority order, the first header
containing the highest-priority candidate winning.  Defined for
comparison with `find_col`; the code iterates columns, not
candidates. -/
def specFindCol : List String → List String → Option String
  | [], _ => none
  | p :: ps, headers =>
      match headers.find? (fun c => containsSub (lowerStr c) p) with
      | some c => some c
      | none => specFindCol ps headers

/-- Modelled from the spec: the `PrimaryMagnitude` candidate list the
specification states, which adds a bare "assets" candidate the code
does not have. -/
def specAssetPatterns : List String :=
  ["consol assets", "consolidated assets", "consol", "assets"]

/-- The normalized output unit (spec `CanonicalRecord`).  Optional
fields are `none` when the role is unbound or the cell does not
parse. -/
structure CanonicalRecord where
  entityName : String
  rank : Option ℚ
  location : Option String
  region : Option String
  charterType : Option String
  internationalBankingFacilityFlag : Option String
  primaryMagnitude : Option ℚ
  secondaryMagnitude : Option ℚ
  deriving DecidableEq, Repr

/-- Read the cell of a row at a bound column position; `none` when the
role is unbound. -/
def getCell (row : List String) : Option Nat → Option String
  | none => none
  | some i => row.get? i

/-- One row of lines 122-182 of `app.py` turned into a record.
`entityName` is the first cell verbatim (`df.columns[0]` presupposes at
least one column; theorems about whole tables hypothesise nonempty
headers).  `rank` is `pd.to_numeric` of the rank cell (line 172), the
magnitudes are cleaned-and-coerced (lines 147-152), `region` is the
state extraction of line 156 applied to the location cell when a
location column is bound. -/
def mkRecord (t : RawTable) (row : List String) : CanonicalRecord where
  entityName := (row.get? 0).getD ""
  rank := (getCell row (col_rankIdx t)).bind to_numeric
  location := getCell row (col_locIdx t)
  region := (getCell row (col_locIdx t)).bind extractState
  charterType := getCell row (col_charIdx t)
  internationalBankingFacilityFlag := getCell row (col_ibfIdx t)
  primaryMagnitude := (getCell row (col_assetsIdx t)).bind coerceNum
  secondaryMagnitude := (getCell row (col_dom_assetsIdx t)).bind coerceNum

/-- Lines 122-182 of `app.py`: the record set produced from the chosen
table.  The code performs no row filtering of any kind. -/
def normalizeTable (t : RawTable) : List CanonicalRecord :=
  t.rows.map (mkRecord t)

/-- Lines 338 and 361 of `app.py`: the dashboard's check that a usable
magnitude column exists — the canonical assets column is present
(i.e. the role bound, line 165's rename) and at least one cell parsed
to a number.  Its negation is the degraded state the page reports. -/
def assetsDetected (t : RawTable) : Bool :=
  (col_assets t).isSome && (normalizeTable t).any fun r => r.primaryMagnitude.isSome

/-- Counterexample table for C2: the first column contains the
low-priority candidate "consol", the second the top-priority candidate
"consol assets". -/
def tConsolPair : RawTable :=
  { headers := ["Consol Note", "Consol Assets"], rows := [] }

/-- Counterexample table for C3: one row whose entity-name cell is a
single space. -/
def tWsEntity : RawTable :=
  { headers := ["Bank", "Rank"], rows := [[" ", "1"]] }

/-- Witness table for C4: no header matches any magnitude candidate. -/
def tNoAssets : RawTable :=
  { headers := ["Bank", "Stuff"], rows := [["A", "1"]] }

/-- Table with a genuinely zero magnitude, distinguishable from the
degraded state. -/
def tZeroAssets : RawTable :=
  { headers := ["Bank", "Consol Assets"], rows := [["A", "0"]] }

/-- Witness table for C6: no location column bound. -/
def tNoLocation : RawTable :=
  { headers := ["Bank", "Charter"], rows := [["A", "N"]] }

/-- Witness tables for C7: headers carry none of the scored signals;
cell counts are 1, 2 and 2. -/
def tSmall : RawTable :=
  { headers := ["alpha"], rows := [["x"]] }

/-- Second witness table for C7 (first of the two tied maxima). -/
def tBigFirst : RawTable :=
  { headers := ["beta"], rows := [["x"], ["y"]] }

/-- Third witness table for C7 (second of the two tied maxima). -/
def tBigSecond : RawTable :=
  { headers := ["gamma"], rows := [["x"], ["y"]] }

/-- C1, counterexample: the code does not implement the weighted score.
`tRankAssetsLoc` scores strictly higher than `tRankAssets` under the
spec's signals (5 vs 4, "Location" adds 1), yet `selectBestTable`
returns `tRankAssets` because it is the first table whose headers
contain both a "rank" and a "consol"/"assets" substring. -/
theorem select_not_by_score_cex :
    selectBestTable [tRankAssets, tRankAssetsLoc] = Except.ok tRankAssets ∧
    specScore tRankAssets < specScore tRankAssetsLoc ∧
    tRankAssets ≠ tRankAssetsLoc :=
  ⟨rfl, by decide, by decide⟩

/-- C1 (corrected): `selectBestTable` returns the first table in input
order whose headers contain (case-insensitively) both a "rank" substring
and a "consol" or "assets" substring; in particular a table with headers
Rank and Consol Assets always qualifies, so when such a table is the
first qualifying one it is returned regardless of the other tables'
shapes. -/
theorem selectBestTable_first_qualifying (ts : List RawTable) (t : RawTable)
    (h : ts.find? qualifies = some t) :
    selectBestTable ts = Except.ok t ∧ qualifies t = true ∧
    (∀ rows : List (List String), qualifies { headers := ["Rank", "Consol Assets"], rows := rows } = true) := by
  refine ⟨?_, List.find?_some h, fun rows => rfl⟩
  unfold selectBestTable
  rw [h]

/-- Witness for C1's theorem at a concrete input: a junk table followed
by a Rank/Consol Assets table; the latter is the first qualifying table
and is returned. -/
theorem selectBestTable_first_qualifying_witness :
    selectBestTable [{ headers := ["Junk"], rows := [] },
                     { headers := ["Rank", "Consol Assets"], rows := [] }] =
      Except.ok { headers := ["Rank", "Consol Assets"], rows := [] } ∧
    qualifies { headers := ["Rank", "Consol Assets"], rows := ([] : List (List String)) } = true ∧
    (∀ rows : List (List String), qualifies { headers := ["Rank", "Consol Assets"], rows := rows } = true) :=
  selectBestTable_first_qualifying _ _ (by decide)

/-- C8, counterexample: on an empty sequence the selection code reaches
the fallback `max(tables, ...)`, which raises Python's generic
empty-sequence ValueError — not a dedicated NoTablesFound failure. -/
theorem selectBestTable_empty_cex :
    selectBestTable [] = Except.error PipelineError.emptyMaxArg ∧
    (Except.error PipelineError.emptyMaxArg : Except PipelineError RawTable) ≠
      Except.error PipelineError.noTablesFound :=
  ⟨rfl, fun h => PipelineError.noConfusion (Except.error.inj h)⟩

/-- C8 (corrected): `selectBestTable []` does fail rather than return a
table, but with the generic empty-sequence error of the size fallback;
the dedicated "No tables found" failure is raised one step earlier by
the HTML table parser when the document yields zero tables, so the scan
itself never sees an empty sequence in the full pipeline. -/
theorem selectBestTable_empty_error :
    selectBestTable [] = Except.error PipelineError.emptyMaxArg ∧
    parseAndSelect [] = Except.error PipelineError.noTablesFound :=
  ⟨rfl, rfl⟩

/-- Helper: a predicate false on every element gives no first index. -/
theorem firstIdx_eq_none_of_all {p : String → Bool} :
    ∀ {l : List String}, (∀ c ∈ l, p c = false) → firstIdx p l = none := by
  intro l
  induction l with
  | nil => intro _; rfl
  | cons c cs ih =>
      intro h
      have hc : p c = false := h c (List.mem_cons_self c cs)
      simp [firstIdx, hc, ih fun x hx => h x (List.mem_cons_of_mem c hx)]

/-- Helper: `find?` over an append whose left part is all-failing
returns the head of the right part when it satisfies the predicate. -/
theorem find?_append_first {p : String → Bool} (c : String) (post : List String)
    (hc : p c = true) :
    ∀ (pre : List String), (∀ x ∈ pre, p x = false) →
      (pre ++ c :: post).find? p = some c := by
  intro pre
  induction pre with
  | nil => intro _; simp [List.find?, hc]
  | cons q pre ih =>
      intro h
      have hq : p q = false := h q (List.mem_cons_self q pre)
      simp only [List.cons_append, List.find?, hq]
      exact ih fun x hx => h x (List.mem_cons_of_mem q hx)

/-- Helper: membership in `dropWhile` implies membership in the list. -/
theorem mem_of_mem_dropWhile {p : Char → Bool} :
    ∀ {l : List Char} {a : Char}, a ∈ l.dropWhile p → a ∈ l := by
  intro l
  induction l with
  | nil => intro a h; simp [List.dropWhile] at h
  | cons c cs ih =>
      intro a h
      by_cases hc : p c
      · simp [List.dropWhile, hc] at h
        exact List.mem_cons_of_mem c (ih h)
      · simp [List.dropWhile, hc] at h
        simpa using h

/-- Helper: every character of the space-trimmed text occurs in the
original. -/
theorem mem_of_mem_trimSpacesList {l : List Char} {a : Char}
    (h : a ∈ trimSpacesList l) : a ∈ l := by
  unfold trimSpacesList at h
  rw [List.mem_reverse] at h
  have h1 := mem_of_mem_dropWhile h
  rw [List.mem_reverse] at h1
  exact mem_of_mem_dropWhile h1

/-- Helper: a digit-free text never parses to a number. -/
theorem parseCleaned_eq_none_of_no_digit {l : List Char}
    (h : ∀ c ∈ l, c.isDigit = false) : parseCleaned l = none := by
  unfold parseCleaned
  rw [if_neg]
  rintro ⟨-, -, hany⟩
  obtain ⟨c, hc, hdig⟩ := List.any_eq_true.mp hany
  rw [h c hc] at hdig
  exact Bool.false_ne_true hdig

/-- Helper: `pd.to_numeric` of a digit-free string coerces to NaN. -/
theorem to_numeric_eq_none_of_no_digit {s : String}
    (h : ∀ c ∈ s.data, c.isDigit = false) : to_numeric s = none := by
  have hm : ∀ c ∈ trimSpacesList s.data, c.isDigit = false :=
    fun c hc => h c (mem_of_mem_trimSpacesList hc)
  unfold to_numeric
  cases hl : trimSpacesList s.data with
  | nil => rfl
  | cons c rest =>
      have hrest : ∀ x ∈ rest, x.isDigit = false := by
        intro x hx
        exact hm x (hl ▸ List.mem_cons_of_mem c hx)
      have hall : ∀ x ∈ c :: rest, x.isDigit = false := by
        intro x hx
        exact hm x (hl ▸ hx)
      by_cases h1 : c == '-'
      · simp [h1, parseCleaned_eq_none_of_no_digit hrest]
      · by_cases h2 : c == '+'
        · simp [h1, h2, parseCleaned_eq_none_of_no_digit hrest]
        · simp [h1, h2, parseCleaned_eq_none_of_no_digit hall]

/-- C2, counterexample: role resolution is not by candidate priority.
In `tConsolPair` the second column "Consol Assets" contains the
top-priority candidate "consol assets", yet the code binds the first
column "Consol Note", which only contains the lowest-priority candidate
"consol"; resolution in the spec's candidate-priority order would bind
"Consol Assets".  Also, the code's candidate list has no bare "assets"
entry, so a lone "Total Assets" header stays unbound. -/
theorem find_col_not_priority_cex :
    col_assets tConsolPair = some "Consol Note" ∧
    specFindCol specAssetPatterns (trimmedHeaders tConsolPair) = some "Consol Assets" ∧
    ("Consol Note" : String) ≠ "Consol Assets" ∧
    find_col assetPatterns ["Total Assets"] = none :=
  ⟨rfl, rfl, by decide, rfl⟩

/-- C2 (corrected): role resolution scans columns left to right and
binds the first column whose lowercased header contains any of the
role's candidate substrings; candidate order carries no priority, and
the `PrimaryMagnitude` candidates are "consol assets",
"consolidated assets" and "consol" only (no bare "assets"). -/
theorem find_col_binds_first_matching_column (ps pre : List String) (c : String)
    (post : List String) (hpre : ∀ x ∈ pre, matchesAny ps x = false)
    (hc : matchesAny ps c = true) :
    find_col ps (pre ++ c :: post) = some c ∧
    assetPatterns = ["consol assets", "consolidated assets", "consol"] :=
  ⟨find?_append_first c post hc pre hpre, rfl⟩

/-- Witness for C2's theorem: among the headers Bank Name,
Consol Assets (Mil $), Domestic Assets, the magnitude role binds the
Consol Assets column. -/
theorem find_col_binds_first_matching_column_witness :
    find_col assetPatterns (["Bank Name"] ++ "Consol Assets (Mil $)" :: ["Domestic Assets"]) =
      some "Consol Assets (Mil $)" ∧
    assetPatterns = ["consol assets", "consolidated assets", "consol"] :=
  find_col_binds_first_matching_column assetPatterns ["Bank Name"]
    "Consol Assets (Mil $)" ["Domestic Assets"] (by decide) (by decide)

/-- C3, counterexample: a row whose entity-name cell is a single space
is not excluded — `normalizeTable` keeps it, producing a record whose
`entityName` is whitespace-only. -/
theorem whitespace_entity_row_retained_cex :
    (normalizeTable tWsEntity).length = 1 ∧
    (normalizeTable tWsEntity).map CanonicalRecord.entityName = [" "] ∧
    stripStr " " = "" :=
  ⟨rfl, rfl, rfl⟩

/-- C3 (corrected): `normalizeTable` performs no row filtering at all — every
input row yields exactly one record, in order, and the entity-name cell
is carried over verbatim, so records with empty or whitespace-only
`entityName` do occur. -/
theorem normalize_retains_all_rows (t : RawTable) (_hcols : t.headers ≠ []) :
    (normalizeTable t).length = t.rows.length ∧
    (normalizeTable t).map CanonicalRecord.entityName =
      t.rows.map (fun row => (row.get? 0).getD "") := by
  refine ⟨by simp [normalizeTable], ?_⟩
  simp [normalizeTable, List.map_map]
  intro row _
  simp [mkRecord, List.get?_eq_getElem?]

/-- Witness for C3's theorem at the whitespace-entity table. -/
theorem normalize_retains_all_rows_witness :
    (normalizeTable tWsEntity).length = tWsEntity.rows.length ∧
    (normalizeTable tWsEntity).map CanonicalRecord.entityName =
      tWsEntity.rows.map (fun row => (row.get? 0).getD "") :=
  normalize_retains_all_rows tWsEntity (by decide)

/-- C4 (confirmed): when no header matches any `PrimaryMagnitude`
candidate, every record's `primaryMagnitude` is absent and the
dashboard's assets-detected check is false — the degraded state the
page reports (line 362) — while a table with a genuinely zero magnitude
passes the check, so the two states are distinguishable. -/
theorem no_magnitude_column_degraded (t : RawTable)
    (h : ∀ c ∈ trimmedHeaders t, matchesAny assetPatterns c = false) :
    (∀ rec ∈ normalizeTable t, rec.primaryMagnitude = none) ∧
    assetsDetected t = false ∧
    assetsDetected tZeroAssets = true := by
  have hidx : col_assetsIdx t = none := firstIdx_eq_none_of_all h
  have hname : col_assets t = none := by
    apply List.find?_eq_none.mpr
    intro c hc
    simp [h c hc]
  refine ⟨?_, ?_, rfl⟩
  · intro rec hrec
    simp only [normalizeTable, List.mem_map] at hrec
    obtain ⟨row, -, rfl⟩ := hrec
    simp [mkRecord, hidx, getCell]
  · simp [assetsDetected, hname]

/-- Witness for C4's theorem at a table with headers Bank, Stuff. -/
theorem no_magnitude_column_degraded_witness :
    (∀ rec ∈ normalizeTable tNoAssets, rec.primaryMagnitude = none) ∧
    assetsDetected tNoAssets = false ∧
    assetsDetected tZeroAssets = true :=
  no_magnitude_column_degraded tNoAssets (by decide)

/-- C5 (confirmed): coercion of any magnitude cell whose text contains
no digit yields absent — never zero, never a failure — and the row
itself is always retained (normalization drops no rows). -/
theorem coerce_no_digits_absent (s : String)
    (h : ∀ c ∈ s.data, c.isDigit = false) :
    coerceNum s = none ∧
    (∀ t : RawTable, t.headers ≠ [] → (normalizeTable t).length = t.rows.length) := by
  refine ⟨?_, fun t _ => by simp [normalizeTable]⟩
  apply to_numeric_eq_none_of_no_digit
  intro c hc
  apply h
  have h1 : c ∈ stripNonNumeric (removeCommas s.data) := hc
  have h2 := (List.mem_filter.mp h1).1
  exact (List.mem_filter.mp h2).1

/-- Witness for C5's theorem at the em-dash placeholder cell. -/
theorem coerce_no_digits_absent_witness :
    coerceNum "—" = none ∧
    (∀ t : RawTable, t.headers ≠ [] → (normalizeTable t).length = t.rows.length) :=
  coerce_no_digits_absent "—" (by decide)

/-- C9 (confirmed): coercion of the cell "3,813,431" removes the
commas, keeps the digits, and parses to exactly 3813431. -/
theorem coerce_roundtrip_3813431 :
    coerceNum "3,813,431" = some (3813431 : ℚ) := by
  show parseCleaned ['3', '8', '1', '3', '4', '3', '1'] = some (3813431 : ℚ)
  rw [parseCleaned, if_pos (by decide)]
  show some (((3813431 : ℕ) : ℚ) + ((0 : ℕ) : ℚ) / (10 : ℚ) ^ (0 : ℕ)) = some (3813431 : ℚ)
  norm_num

/-- C10 (confirmed): the IBF role binds only by exact match — the first
header whose stripped, uppercased text equals "IBF" — so a header that
merely contains "IBF" inside a longer name (such as "IBF Flag") leaves
the role unbound, while a header that is "IBF" up to whitespace
binds. -/
theorem ibf_exact_match_only (t : RawTable)
    (h : ∀ c ∈ trimmedHeaders t, ibfPred c = false) :
    col_ibf t = none ∧
    (∀ (u : RawTable) (c : String), col_ibf u = some c → ibfPred c = true) ∧
    col_ibf { headers := ["Rank", "IBF Flag"], rows := [] } = none ∧
    containsSub "IBF Flag" "IBF" = true ∧
    col_ibf { headers := ["Rank", " IBF "], rows := [] } = some "IBF" := by
  refine ⟨?_, fun u c hc => List.find?_some hc, rfl, rfl, rfl⟩
  apply List.find?_eq_none.mpr
  intro c hc
  simp [h c hc]

/-- Witness for C10's theorem at a table with no IBF-like header. -/
theorem ibf_exact_match_only_witness :
    col_ibf tNoAssets = none ∧
    (∀ (u : RawTable) (c : String), col_ibf u = some c → ibfPred c = true) ∧
    col_ibf { headers := ["Rank", "IBF Flag"], rows := [] } = none ∧
    containsSub "IBF Flag" "IBF" = true ∧
    col_ibf { headers := ["Rank", " IBF "], rows := [] } = some "IBF" :=
  ibf_exact_match_only tNoAssets (by decide)

/-- Helper: a table of spec-score zero cannot qualify, since qualifying
requires a "rank" header, which alone scores 2. -/
theorem not_qualifies_of_specScore_zero (t : RawTable) (h : specScore t = 0) :
    qualifies t = false := by
  cases hq : qualifies t
  · rfl
  · exfalso
    have h1 : (t.headers.any fun c => containsSub (lowerStr c) "rank") = true := by
      simp only [qualifies, Bool.and_eq_true] at hq
      exact hq.1
    unfold specScore at h
    rw [if_pos h1] at h
    omega

/-- Helper: the `max` fold never moves off an accumulator at least as
large as every list element. -/
theorem foldl_max_no_improve (l : List RawTable) (acc : RawTable)
    (h : ∀ u ∈ l, cellCount u ≤ cellCount acc) :
    l.foldl (fun best x => if cellCount best < cellCount x then x else best) acc = acc := by
  induction l with
  | nil => rfl
  | cons x xs ih =>
      have hx : ¬ cellCount acc < cellCount x :=
        Nat.not_lt.mpr (h x (List.mem_cons_self x xs))
      simp only [List.foldl, if_neg hx]
      exact ih fun u hu => h u (List.mem_cons_of_mem x hu)

/-- Helper: the `max` fold reaches the first strictly-dominating
element and then stays there. -/
theorem foldl_max_reach (pre : List RawTable) :
    ∀ (acc t : RawTable) (post : List RawTable),
      (∀ u ∈ pre, cellCount u < cellCount t) → cellCount acc < cellCount t →
      (∀ u ∈ post, cellCount u ≤ cellCount t) →
      (pre ++ t :: post).foldl
        (fun best x => if cellCount best < cellCount x then x else best) acc = t := by
  induction pre with
  | nil =>
      intro acc t post _ hacc hpost
      simp only [List.nil_append, List.foldl, if_pos hacc]
      exact foldl_max_no_improve post t hpost
  | cons q pre ih =>
      intro acc t post hpre hacc hpost
      simp only [List.cons_append, List.foldl]
      have hq : cellCount q < cellCount t := hpre q (List.mem_cons_self q pre)
      have hstep : cellCount (if cellCount acc < cellCount q then q else acc) < cellCount t := by
        by_cases hc : cellCount acc < cellCount q
        · simpa [hc] using hq
        · simpa [hc] using hacc
      exact ih _ t post (fun u hu => hpre u (List.mem_cons_of_mem q hu)) hstep hpost

/-- C7 (confirmed): when no table carries any scored signal (every
spec-score is zero), `selectBestTable` falls back to the table with the
greatest cell count (rows times columns), and among equal products the
first in input order wins: if `t` strictly dominates everything before
it and is at least as large as everything after it, `t` is returned. -/
theorem fallback_max_cellcount_first (pre post : List RawTable) (t : RawTable)
    (hscore : ∀ u ∈ pre ++ t :: post, specScore u = 0)
    (hpre : ∀ u ∈ pre, cellCount u < cellCount t)
    (hpost : ∀ u ∈ post, cellCount u ≤ cellCount t) :
    selectBestTable (pre ++ t :: post) = Except.ok t := by
  have hfind : (pre ++ t :: post).find? qualifies = none := by
    apply List.find?_eq_none.mpr
    intro u hu
    simp [not_qualifies_of_specScore_zero u (hscore u hu)]
  have hmax : maxBySize (pre ++ t :: post) = some t := by
    cases pre with
    | nil =>
        simp only [List.nil_append, maxBySize]
        exact congrArg some (foldl_max_no_improve post t hpost)
    | cons q pre' =>
        simp only [List.cons_append, maxBySize]
        refine congrArg some ?_
        have hq : cellCount q < cellCount t := hpre q (List.mem_cons_self q pre')
        exact foldl_max_reach pre' q t post
          (fun u hu => hpre u (List.mem_cons_of_mem q hu)) hq hpost
  unfold selectBestTable
  rw [hfind, hmax]

/-- Witness for C7's theorem: three unscored tables of cell counts 1, 2
and 2; the first of the two tied maxima is returned. -/
theorem fallback_max_cellcount_first_witness :
    selectBestTable [tSmall, tBigFirst, tBigSecond] = Except.ok tBigFirst :=
  fallback_max_cellcount_first [tSmall] [tBigSecond] tBigFirst
    (by decide) (by decide) (by decide)

/-- Helper: a whitespace character is not an uppercase letter. -/
theorem space_not_AZ {c : Char} (h : isSpaceChar c = true) : isAZ c = false := by
  simp only [isSpaceChar, Bool.or_eq_true, beq_iff_eq] at h
  rcases h with (((((rfl | rfl) | rfl) | rfl) | rfl) | rfl) <;> decide

/-- Helper: an uppercase letter is not whitespace. -/
theorem isAZ_not_space {c : Char} (h : isAZ c = true) : isSpaceChar c = false := by
  cases hs : isSpaceChar c
  · rfl
  · rw [space_not_AZ hs] at h
    exact Bool.noConfusion h

/-- Helper: `dropWhile` skips an all-satisfying prefix. -/
theorem dropWhile_append_all {p : Char → Bool} :
    ∀ (xs ys : List Char), (∀ x ∈ xs, p x = true) →
      (xs ++ ys).dropWhile p = ys.dropWhile p := by
  intro xs ys
  induction xs with
  | nil => intro _; rfl
  | cons c cs ih =>
      intro h
      have hc : p c = true := h c (List.mem_cons_self c cs)
      simp only [List.cons_append, List.dropWhile_cons, hc, if_true]
      exact ih fun u hu => h u (List.mem_cons_of_mem c hu)

/-- Helper: `dropWhile` stops at a failing head. -/
theorem dropWhile_cons_neg {p : Char → Bool} {c : Char} (h : p c = false) (l : List Char) :
    (c :: l).dropWhile p = c :: l := by
  simp [List.dropWhile_cons, h]

/-- Helper: a `dropWhile` result decomposes its input into an
all-satisfying prefix and the result. -/
theorem dropWhile_decomp {p : Char → Bool} {l d : List Char}
    (h : l.dropWhile p = d) :
    ∃ tw, l = tw ++ d ∧ ∀ c ∈ tw, p c = true := by
  refine ⟨l.takeWhile p, ?_, ?_⟩
  · rw [← h]
    exact (List.takeWhile_append_dropWhile p l).symm
  · intro c hc
    exact List.mem_takeWhile_imp hc

/-- Helper: `extractState` succeeds exactly on the language of the
regex of line 156 — comma, any whitespace, two captured uppercase
letters, trailing whitespace, end of string. -/
theorem extractState_iff (s r : String) :
    extractState s = some r ↔ ∃ x y, TrailingPat s x y ∧ r = String.mk [x, y] := by
  constructor
  · intro e
    unfold extractState at e
    split at e
    case h_2 => exact Option.noConfusion e
    case h_1 y x rest heq1 =>
      by_cases hAZ : (isAZ x && isAZ y) = true
      · rw [if_pos hAZ] at e
        obtain ⟨hx, hy⟩ := Bool.and_eq_true _ _ ▸ hAZ
        cases heq2 : rest.dropWhile isSpaceChar with
        | nil => rw [heq2] at e; exact Option.noConfusion e
        | cons c u =>
            rw [heq2] at e
            dsimp only at e
            by_cases hc : (c == ',') = true
            · rw [if_pos hc] at e
              have hc' : c = ',' := by simpa using hc
              subst hc'
              obtain ⟨tw1, h1d, h1w⟩ := dropWhile_decomp heq1
              obtain ⟨tw2, h2d, h2w⟩ := dropWhile_decomp heq2
              refine ⟨x, y, ⟨u.reverse, tw2.reverse, tw1.reverse, ?_, ?_, ?_, hx, hy⟩,
                (Option.some.inj e).symm⟩
              · have hmain : s.data = (tw1 ++ y :: x :: (tw2 ++ ',' :: u)).reverse := by
                  rw [← h2d, ← h1d, List.reverse_reverse]
                rw [hmain]
                simp [List.reverse_append, List.append_assoc]
              · intro ch hch
                exact h2w ch (List.mem_reverse.mp hch)
              · intro ch hch
                exact h1w ch (List.mem_reverse.mp hch)
            · rw [if_neg hc] at e
              exact Option.noConfusion e
      · rw [if_neg hAZ] at e
        exact Option.noConfusion e
  · rintro ⟨x, y, ⟨pre, ws1, ws2, hdecomp, hws1, hws2, hx, hy⟩, rfl⟩
    unfold extractState
    have h1 : s.data.reverse.dropWhile isSpaceChar =
        y :: x :: (ws1.reverse ++ ',' :: pre.reverse) := by
      rw [hdecomp]
      simp only [List.reverse_append, List.reverse_cons, List.append_assoc,
        List.cons_append, List.nil_append, List.append_nil]
      rw [dropWhile_append_all ws2.reverse _
        (fun ch hch => hws2 ch (List.mem_reverse.mp hch))]
      rw [dropWhile_cons_neg (isAZ_not_space hy)]
    rw [h1]
    dsimp only
    rw [if_pos (show (isAZ x && isAZ y) = true by rw [hx, hy]; rfl)]
    rw [dropWhile_append_all ws1.reverse _
      (fun ch hch => hws1 ch (List.mem_reverse.mp hch))]
    rw [dropWhile_cons_neg (by decide : isSpaceChar ',' = false)]
    show (if (',' == ',') = true then some (String.mk [x, y]) else none) = some (String.mk [x, y])
    rw [if_pos (by decide : (',' == ',') = true)]

/-- C6, counterexample: the code's pattern allows any amount of
whitespace after the comma, including none — "LINCOLN,NE" yields region
"NE" — while the claimed pattern comma-space-two-letters does not match
that text and would leave the region absent. -/
theorem region_comma_no_space_cex :
    extractState "LINCOLN,NE" = some "NE" ∧ specRegion "LINCOLN,NE" = none :=
  ⟨rfl, rfl⟩

/-- C6 (corrected): region derivation is a pure function of the
location text matching the trailing pattern comma, optional whitespace,
two captured uppercase letters, optional trailing whitespace, end of
string; "NEW YORK, NY" yields "NY", "LONDON" yields absent, and when no
Location role is bound every record's region is absent. -/
theorem region_trailing_pattern (s r : String) (t : RawTable)
    (hloc : col_loc t = none) :
    (extractState s = some r ↔ ∃ x y, TrailingPat s x y ∧ r = String.mk [x, y]) ∧
    (∀ rec ∈ normalizeTable t, rec.region = none) ∧
    extractState "NEW YORK, NY" = some "NY" ∧
    extractState "LONDON" = none := by
  refine ⟨extractState_iff s r, ?_, rfl, rfl⟩
  have hidx : col_locIdx t = none := by
    apply firstIdx_eq_none_of_all
    intro c hc
    cases hb : matchesAny ["location"] c
    · rfl
    · exact absurd hb (List.find?_eq_none.mp hloc c hc)
  intro rec hrec
  simp only [normalizeTable, List.mem_map] at hrec
  obtain ⟨row, -, rfl⟩ := hrec
  simp [mkRecord, hidx, getCell]

/-- Witness for C6's theorem at "NEW YORK, NY" and a table with no
location column. -/
theorem region_trailing_pattern_witness :
    (extractState "NEW YORK, NY" = some "NY" ↔
      ∃ x y, TrailingPat "NEW YORK, NY" x y ∧ "NY" = String.mk [x, y]) ∧
    (∀ rec ∈ normalizeTable tNoLocation, rec.region = none) ∧
    extractState "NEW YORK, NY" = some "NY" ∧
    extractState "LONDON" = none :=
  region_trailing_pattern "NEW YORK, NY" "NY" tNoLocation rfl
